import Mathlib

/-!
Shallow embedding of the internship-and-job-tracker repository
(src/scraper.py, src/database.py, src/filter.py) and proofs about it.

Network responses are modelled as already-fetched data: a fetch site either
raises a transport error (`none`) or yields a `Response` carrying the HTTP
status, the Content-Type header, the outcome of `resp.json()` (`none` =
JSON parse error), and the BeautifulSoup view of the body (script tags and
anchor tags).  Regular-expression extraction (`re.findall`) over a script
body cannot be embedded character-for-character, so each script tag carries
the list of pairs the site-specific pattern extracts from its content;
theorems that depend on the shape of those pairs assume only properties
guaranteed by the pattern itself (each capture group matches at least one
character).
-/

namespace JobTracker

/- JSON values as produced by `json.loads` / `resp.json()`.  Encoded as a
mutual inductive (rather than nesting `List`) so that decidable equality,
which models Python `==` on these values and backs `set` membership in the
dedup passes, can be derived. -/
mutual
inductive Json where
  | null
  | bool (b : Bool)
  | num (n : Int)
  | str (s : String)
  | arr (xs : JsonList)
  | obj (kvs : JsonObj)
deriving DecidableEq
inductive JsonList where
  | nil
  | cons (hd : Json) (tl : JsonList)
deriving DecidableEq
inductive JsonObj where
  | onil
  | ocons (k : String) (v : Json) (tl : JsonObj)
deriving DecidableEq
end

def JsonList.toList : JsonList → List Json
  | .nil => []
  | .cons x xs => x :: xs.toList

def JsonList.ofList : List Json → JsonList
  | [] => .nil
  | x :: xs => .cons x (JsonList.ofList xs)

def JsonObj.keys : JsonObj → List String
  | .onil => []
  | .ocons k _ tl => k :: tl.keys

/-- Association lookup in a JSON object.  Python dicts have unique keys, so
first-match lookup is exact for every dict `json.loads` can produce. -/
def JsonObj.lookup : JsonObj → String → Option Json
  | .onil, _ => none
  | .ocons k v tl, key => if k = key then some v else tl.lookup key

def JsonObj.ofList : List (String × Json) → JsonObj
  | [] => .onil
  | (k, v) :: tl => .ocons k v (JsonObj.ofList tl)

/-- Convenience constructor for array literals. -/
def Json.jarr (xs : List Json) : Json := .arr (JsonList.ofList xs)

/-- Convenience constructor for object literals. -/
def Json.jobj (kvs : List (String × Json)) : Json := .obj (JsonObj.ofList kvs)

/-- Python truthiness of a JSON value (`if x:`): None, False, 0, "", [], {}
are falsy, everything else truthy. -/
def Json.truthy : Json → Bool
  | .null => false
  | .bool b => b
  | .num n => decide (n ≠ 0)
  | .str s => decide (s ≠ "")
  | .arr .nil => false
  | .arr (.cons _ _) => true
  | .obj .onil => false
  | .obj (.ocons _ _ _) => true

/-- Python `a or b` on JSON values: `a` if truthy, else `b`. -/
def pyOr (a b : Json) : Json := if a.truthy then a else b

/-- Python `str()` of a JSON value, as interpolated by an f-string.
`None`/`True`/`False`/numbers/strings are rendered exactly; the repr of
list/dict values is abbreviated (no claim in this development depends on
interpolating a container into a link). -/
def Json.pyStr : Json → String
  | .null => "None"
  | .bool true => "True"
  | .bool false => "False"
  | .num n => toString n
  | .str s => s
  | .arr _ => "[...]"
  | .obj _ => "\x7b...\x7d"

/-- Python `dict.get(key, default)`.  `none` models an `AttributeError`
(the receiver is not a dict); `some v` is the Python result, where an
absent key yields the default. -/
def pyGetD (j : Json) (k : String) (d : Json) : Option Json :=
  match j with
  | .obj kvs => some ((kvs.lookup k).getD d)
  | _ => none

/-- Python `dict.get(key)` (default `None`). -/
def pyGet (j : Json) (k : String) : Option Json := pyGetD j k .null

/-- Python `x == "lit"` for a string literal: true only for an equal string
value, false (never an error) for every other value. -/
def Json.eqStr : Json → String → Bool
  | .str s, t => decide (s = t)
  | _, _ => false

/-- Python `for x in j`: `none` models a `TypeError` (not iterable).
Iterating a string yields its characters as 1-character strings; iterating
a dict yields its keys. -/
def Json.pyIter : Json → Option (List Json)
  | .arr xs => some xs.toList
  | .str s => some (s.data.map fun c => Json.str (String.mk [c]))
  | .obj kvs => some (kvs.keys.map Json.str)
  | _ => none

/-- Boolean list-prefix test on characters (Python `str.startswith`). -/
def chListPre : List Char → List Char → Bool
  | [], _ => true
  | _ :: _, [] => false
  | a :: as, b :: bs => decide (a = b) && chListPre as bs

/-- Boolean contiguous-sublist test on characters (Python `pat in s`). -/
def chListSub (pat : List Char) : List Char → Bool
  | [] => pat.isEmpty
  | b :: bs => chListPre pat (b :: bs) || chListSub pat bs

/-- Python `pat in s` on strings. -/
def strContains (s pat : String) : Bool := chListSub pat.data s.data

/-- Python `s.startswith(pre)`. -/
def pyStartsWith (s pre : String) : Bool := chListPre pre.data s.data

/-- Python `s.lower()`: lower-cases character by character.
`Char.toLower` agrees with Python on ASCII, which covers every keyword
constant in the repository. -/
def pyLower (s : String) : String := String.mk (s.data.map Char.toLower)

/-- The canonical job record built by every extractor
(`{"company": ..., "title": ..., "location": ..., "link": ...}`).
`company` is always a string literal in the source; the other three fields
hold whatever JSON value the source data supplied. -/
structure JobRecord where
  company : String
  title : Json
  location : Json
  link : Json
deriving DecidableEq

/-- One `<script>` tag as seen through BeautifulSoup.  `content` is
`s.string` (`none` when the tag has no single string child); `ldJson` is
the outcome of `json.loads(s.string or "")` (`none` = raise); `blobPairs`
is the list of capture-group pairs that the enclosing extractor's
`re.findall` pattern produces on `s.string or ""`. -/
structure ScriptTag where
  isLd : Bool
  content : Option String
  ldJson : Option Json
  blobPairs : List (String × String)

/-- One `<a href=...>` element: `href` attribute and
`a.get_text(strip=True)`. -/
structure Anchor where
  href : String
  text : String

/-- One fetched HTTP response: status code, the Content-Type header
(`resp.headers.get("Content-Type", "")`), the outcome of `resp.json()`
(`none` = JSON parse error), and the parsed-HTML view of the body. -/
structure Response where
  status : Nat
  contentType : String
  json : Option Json
  scripts : List ScriptTag
  anchors : List Anchor

/-- The network environment of one run: the outcome of each fetch the
scrapers perform, in source order.  `none` models a transport exception
raised by `requests.get`. -/
structure Env where
  googleResp : Option Response
  msSearch1 : Option Response
  msSearch2 : Option Response
  msHtml : Option Response
  zomatoApi1 : Option Response
  zomatoApi2 : Option Response
  zomatoApi3 : Option Response
  zomatoHtml : Option Response
  swiggyApi1 : Option Response
  swiggyApi2 : Option Response
  swiggyApi3 : Option Response
  swiggyHtml : Option Response

/-- Runs a per-item normalizer over a raw job list the way a Python `for`
loop inside a `try` block does: `none` from the normalizer models an
exception, which keeps the records appended so far and aborts the rest of
the loop (second component `false`). -/
def runPartial (f : Json → Option (Option JobRecord)) : List Json → List JobRecord × Bool
  | [] => ([], true)
  | x :: xs =>
    match f x with
    | none => ([], false)
    | some none => runPartial f xs
    | some (some r) =>
      let p := runPartial f xs
      (r :: p.1, p.2)

/-- Models `items = data if isinstance(data, list) else [data]`. -/
def jsonItems : Json → List Json
  | .arr xs => xs.toList
  | j => [j]

/-- Processes one `application/ld+json` script inside its per-script
`try`: a JSON parse failure or a mid-loop exception loses only the rest of
that script's items. -/
def runLd (f : Json → Option (Option JobRecord)) (s : ScriptTag) : List JobRecord :=
  match s.ldJson with
  | none => []
  | some d => (runPartial f (jsonItems d)).1

/-- Shared shape of the script-blob layers: scan scripts in order; on the
first script whose text matches the marker, map the (capped) findall pairs
to records; stop as soon as one script yields at least one record. -/
def blobGo (marker : ScriptTag → Bool) (mk : String × String → List JobRecord)
    (cap : Nat) : List ScriptTag → List JobRecord
  | [] => []
  | s :: rest =>
    if marker s then
      let recs := (s.blobPairs.take cap).flatMap mk
      if recs.isEmpty then blobGo marker mk cap rest else recs
    else blobGo marker mk cap rest

/-- Models `full = href if href.startswith("http") else base + href`. -/
def resolveUrl (base href : String) : String :=
  if pyStartsWith href "http" then href else base ++ href

/-- The final dedup pass of `scrape_google`: `seen` is the set of links
already emitted; a record is kept iff its link is not in `seen`. -/
def dedupByLink (seen : List Json) : List JobRecord → List JobRecord
  | [] => []
  | r :: rs =>
    if r.link ∈ seen then dedupByLink seen rs
    else r :: dedupByLink (r.link :: seen) rs

/-- The shared tail of every per-item normalizer:
`if title and link: jobs.append({...})`. -/
def mkChecked (company : String) (title loc link : Json) :
    Option (Option JobRecord) :=
  if title.truthy && link.truthy then some (some ⟨company, title, loc, link⟩)
  else some none

/-- Models `loc = (item.get("jobLocation") or {})` followed by
`if isinstance(loc, list): loc = loc[0] if loc else {}`. -/
def googleLoc1 : Json → Json
  | .arr .nil => Json.obj .onil
  | .arr (.cons x _) => x
  | j => j

/-- Models `loc.get("address", {}).get("addressLocality", "India")`; `none`
models an `AttributeError` raised when a receiver is not a dict. -/
def googleLocality (kvs : JsonObj) : Option Json :=
  match pyGetD (googleLoc1 (pyOr ((kvs.lookup "jobLocation").getD .null)
      (.obj .onil))) "address" (.obj .onil) with
  | none => none
  | some addr => pyGetD addr "addressLocality" (.str "India")

/-- Google, Method A: one JSON-LD `JobPosting` item.  `item.get` on a
non-dict raises (aborting the script); an `AttributeError` from the
location chain also aborts, before the record is appended. -/
def googleLdItem (item : Json) : Option (Option JobRecord) :=
  match item with
  | .obj kvs =>
    if ((kvs.lookup "@type").getD .null).eqStr "JobPosting" then
      match googleLocality kvs with
      | none => none
      | some location =>
        mkChecked "Google" ((kvs.lookup "title").getD (.str ""))
          location ((kvs.lookup "url").getD (.str ""))
    else some none
  | _ => none

def googleLdLayer (scripts : List ScriptTag) : List JobRecord :=
  (scripts.filter (·.isLd)).flatMap (runLd googleLdItem)

/-- The marker `if s.string and "job_id" in s.string`. -/
def googleBlobMarker (s : ScriptTag) : Bool :=
  match s.content with
  | none => false
  | some c => decide (c ≠ "") && strContains c "job_id"

def googleBlobMk (p : String × String) : List JobRecord :=
  [⟨"Google", .str p.1, .str "India",
    .str ("https://careers.google.com/jobs/results/" ++ p.2)⟩]

def googleBlobLayer (scripts : List ScriptTag) : List JobRecord :=
  blobGo googleBlobMarker googleBlobMk 30 scripts

/-- The records `scrape_google` collects before its dedup pass: the
JSON-LD layer, then (only if it found nothing) the embedded-script layer;
a transport error leaves the list empty. -/
def googleRaw : Option Response → List JobRecord
  | none => []
  | some resp =>
    if (googleLdLayer resp.scripts).isEmpty then googleBlobLayer resp.scripts
    else googleLdLayer resp.scripts

/-- The extractor `scrape_google`: the layer cascade followed by the link-dedup pass. -/
def scrape_google (env : Env) : List JobRecord :=
  dedupByLink [] (googleRaw env.googleResp)

/-- Models `link = f".../job/{job_id}" if job_id else ""`. -/
def msLink (jid : Json) : Json :=
  if jid.truthy then
    .str ("https://jobs.careers.microsoft.com/global/en/job/" ++ jid.pyStr)
  else .str ""

/-- Microsoft API layer, one entry of the response job list. -/
def msApiItem (job : Json) : Option (Option JobRecord) :=
  match job with
  | .obj kvs =>
    mkChecked "Microsoft" ((kvs.lookup "title").getD (.str ""))
      (pyOr ((kvs.lookup "location").getD .null)
        ((kvs.lookup "primaryLocation").getD (.str "")))
      (msLink (pyOr ((kvs.lookup "jobId").getD .null)
        ((kvs.lookup "id").getD (.str ""))))
  | _ => none

/-- Models `data.get("operationResult", {}).get("result", {}).get("jobs") or
data.get("jobs") or data.get("value") or []`, then iterate. -/
def msEnvelope (data : Json) : Option (List Json) :=
  match data with
  | .obj kvs =>
    let op := (kvs.lookup "operationResult").getD (.obj .onil)
    match pyGetD op "result" (.obj .onil) with
    | none => none
    | some res =>
      match pyGet res "jobs" with
      | none => none
      | some j1 =>
        let j2 := (kvs.lookup "jobs").getD .null
        let j3 := (kvs.lookup "value").getD .null
        (pyOr (pyOr (pyOr j1 j2) j3) (.arr .nil)).pyIter
  | _ => none

/-- One iteration of the Microsoft endpoint loop.  Returns the job list
accumulated so far and whether the `if jobs: break` fired (it can fire
only when no exception interrupted the iteration). -/
def msApiStep (o : Option Response) (acc : List JobRecord) : List JobRecord × Bool :=
  match o with
  | none => (acc, false)
  | some resp =>
    if resp.status = 200 then
      match resp.json with
      | none => (acc, false)
      | some data =>
        match msEnvelope data with
        | none => (acc, false)
        | some items =>
          (acc ++ (runPartial msApiItem items).1,
           (runPartial msApiItem items).2 &&
             !(acc ++ (runPartial msApiItem items).1).isEmpty)
    else (acc, false)

def msApiLayer (env : Env) : List JobRecord :=
  if (msApiStep env.msSearch1 []).2 then (msApiStep env.msSearch1 []).1
  else (msApiStep env.msSearch2 (msApiStep env.msSearch1 []).1).1

/-- The marker `if "jobId" in txt and "title" in txt` with `txt = s.string or ""`. -/
def msHtmlMarker (s : ScriptTag) : Bool :=
  let txt := s.content.getD ""
  strContains txt "jobId" && strContains txt "title"

def msBlobMk (p : String × String) : List JobRecord :=
  [⟨"Microsoft", .str p.1, .str "India",
    .str ("https://jobs.careers.microsoft.com/global/en/job/" ++ p.2)⟩]

def msHtmlLayer : Option Response → List JobRecord
  | none => []
  | some resp => blobGo msHtmlMarker msBlobMk 20 resp.scripts

def scrape_microsoft (env : Env) : List JobRecord :=
  if (msApiLayer env).isEmpty then msHtmlLayer env.msHtml else msApiLayer env

/-- Zomato API layer, one entry of the response job list. -/
def zomatoApiItem (job : Json) : Option (Option JobRecord) :=
  match job with
  | .obj kvs =>
    mkChecked "Zomato"
      (pyOr ((kvs.lookup "title").getD .null) ((kvs.lookup "name").getD (.str "")))
      (pyOr ((kvs.lookup "location").getD .null)
        ((kvs.lookup "city").getD (.str "India")))
      (pyOr (pyOr ((kvs.lookup "url").getD .null)
        ((kvs.lookup "apply_url").getD .null)) ((kvs.lookup "link").getD (.str "")))
  | _ => none

/-- Models `data.get("jobs") or data.get("results") or data.get("data") or []`,
then iterate. -/
def zomatoEnvelope (data : Json) : Option (List Json) :=
  match data with
  | .obj kvs =>
    (pyOr (pyOr (pyOr ((kvs.lookup "jobs").getD .null)
      ((kvs.lookup "results").getD .null)) ((kvs.lookup "data").getD .null))
      (.arr .nil)).pyIter
  | _ => none

/-- The Zomato API-candidate loop: each URL is tried inside its own
`try/except: pass`; `if jobs: break` fires only after an uninterrupted
iteration, and partial appends from an interrupted one are kept. -/
def zomatoApiGo : List (Option Response) → List JobRecord → List JobRecord
  | [], acc => acc
  | o :: rest, acc =>
    match o with
    | none => zomatoApiGo rest acc
    | some resp =>
      if resp.status = 200 && strContains resp.contentType "application/json" then
        match resp.json with
        | none => zomatoApiGo rest acc
        | some data =>
          match zomatoEnvelope data with
          | none => zomatoApiGo rest acc
          | some items =>
            if (runPartial zomatoApiItem items).2 &&
                !(acc ++ (runPartial zomatoApiItem items).1).isEmpty then
              acc ++ (runPartial zomatoApiItem items).1
            else zomatoApiGo rest (acc ++ (runPartial zomatoApiItem items).1)
      else zomatoApiGo rest acc

def zomatoApiLayer (env : Env) : List JobRecord :=
  zomatoApiGo [env.zomatoApi1, env.zomatoApi2, env.zomatoApi3] []

/-- Zomato JSON-LD item: the source appends the record without checking
title or url. -/
def zomatoLdItem (item : Json) : Option (Option JobRecord) :=
  match item with
  | .obj kvs =>
    if ((kvs.lookup "@type").getD .null).eqStr "JobPosting" then
      some (some ⟨"Zomato", (kvs.lookup "title").getD (.str ""), .str "India",
        (kvs.lookup "url").getD (.str "")⟩)
    else some none
  | _ => none

def zomatoLdLayer (scripts : List ScriptTag) : List JobRecord :=
  (scripts.filter (·.isLd)).flatMap (runLd zomatoLdItem)

/-- The marker `if "jobTitle" in txt or ("title" in txt and "applyUrl" in txt)`. -/
def zomatoBlobMarker (s : ScriptTag) : Bool :=
  let txt := s.content.getD ""
  strContains txt "jobTitle" || (strContains txt "title" && strContains txt "applyUrl")

/-- Zomato blob pair: kept only when the link mentions "zomato" or is
root-relative; relative links are resolved against the Zomato base URL. -/
def zomatoBlobMk (p : String × String) : List JobRecord :=
  if strContains (pyLower p.2) "zomato" || pyStartsWith p.2 "/" then
    [⟨"Zomato", .str p.1, .str "India",
      .str (resolveUrl "https://www.zomato.com" p.2)⟩]
  else []

def zomatoBlobLayer (scripts : List ScriptTag) : List JobRecord :=
  blobGo zomatoBlobMarker zomatoBlobMk 20 scripts

/-- The anchor-fallback keep test minus the seen-set check:
`len(text) > 8 and any(kw in href.lower() for kw in kws)`. -/
def anchorKeep (kws : List String) (a : Anchor) : Bool :=
  decide (a.text.length > 8) && kws.any fun kw => strContains (pyLower a.href) kw

def anchorRec (company base : String) (a : Anchor) : JobRecord :=
  ⟨company, .str a.text, .str "India", .str (resolveUrl base a.href)⟩

/-- The anchor-fallback loop.  The source tests
`len(text) > 8 and href not in seen_links and any(...)` in one
conjunction; all three tests are pure, so the seen-set test is factored
out of `anchorKeep` without changing which anchors are kept or when
`seen_links` grows. -/
def anchorGo (company base : String) (kws : List String) (seen : List String) :
    List Anchor → List JobRecord
  | [] => []
  | a :: rest =>
    if anchorKeep kws a then
      if a.href ∈ seen then anchorGo company base kws seen rest
      else anchorRec company base a :: anchorGo company base kws (a.href :: seen) rest
    else anchorGo company base kws seen rest

def zomatoKeywords : List String := ["career", "job", "opening", "role"]

def zomatoAnchorLayer (anchors : List Anchor) : List JobRecord :=
  anchorGo "Zomato" "https://www.zomato.com" zomatoKeywords [] anchors

def zomatoHtmlLayer : Option Response → List JobRecord
  | none => []
  | some resp =>
    if !(zomatoLdLayer resp.scripts).isEmpty then zomatoLdLayer resp.scripts
    else if !(zomatoBlobLayer resp.scripts).isEmpty then zomatoBlobLayer resp.scripts
    else zomatoAnchorLayer resp.anchors

def scrape_zomato (env : Env) : List JobRecord :=
  if (zomatoApiLayer env).isEmpty then zomatoHtmlLayer env.zomatoHtml
  else zomatoApiLayer env

/-- Swiggy API layer, one entry of the response job list. -/
def swiggyApiItem (job : Json) : Option (Option JobRecord) :=
  match job with
  | .obj kvs =>
    mkChecked "Swiggy"
      (pyOr ((kvs.lookup "title").getD .null) ((kvs.lookup "name").getD (.str "")))
      (pyOr ((kvs.lookup "location").getD .null)
        ((kvs.lookup "City").getD (.str "India")))
      (pyOr (pyOr ((kvs.lookup "job_application_url").getD .null)
        ((kvs.lookup "url").getD .null)) ((kvs.lookup "link").getD (.str "")))
  | _ => none

/-- Models `data if isinstance(data, list) else (data.get("jobs") or
data.get("results") or data.get("data") or [])`, then iterate. -/
def swiggyEnvelope (data : Json) : Option (List Json) :=
  match data with
  | .arr xs => some xs.toList
  | .obj kvs =>
    (pyOr (pyOr (pyOr ((kvs.lookup "jobs").getD .null)
      ((kvs.lookup "results").getD .null)) ((kvs.lookup "data").getD .null))
      (.arr .nil)).pyIter
  | _ => none

/-- The Swiggy API-candidate loop (same control flow as Zomato's, with
`"json" in Content-Type` as the header test). -/
def swiggyApiGo : List (Option Response) → List JobRecord → List JobRecord
  | [], acc => acc
  | o :: rest, acc =>
    match o with
    | none => swiggyApiGo rest acc
    | some resp =>
      if resp.status = 200 && strContains resp.contentType "json" then
        match resp.json with
        | none => swiggyApiGo rest acc
        | some data =>
          match swiggyEnvelope data with
          | none => swiggyApiGo rest acc
          | some items =>
            if (runPartial swiggyApiItem items).2 &&
                !(acc ++ (runPartial swiggyApiItem items).1).isEmpty then
              acc ++ (runPartial swiggyApiItem items).1
            else swiggyApiGo rest (acc ++ (runPartial swiggyApiItem items).1)
      else swiggyApiGo rest acc

def swiggyApiLayer (env : Env) : List JobRecord :=
  swiggyApiGo [env.swiggyApi1, env.swiggyApi2, env.swiggyApi3] []

/-- Swiggy JSON-LD item: appended without checking title or url. -/
def swiggyLdItem (item : Json) : Option (Option JobRecord) :=
  match item with
  | .obj kvs =>
    if ((kvs.lookup "@type").getD .null).eqStr "JobPosting" then
      some (some ⟨"Swiggy", (kvs.lookup "title").getD (.str ""), .str "India",
        (kvs.lookup "url").getD (.str "")⟩)
    else some none
  | _ => none

def swiggyLdLayer (scripts : List ScriptTag) : List JobRecord :=
  (scripts.filter (·.isLd)).flatMap (runLd swiggyLdItem)

/-- The marker `if "job_application_url" in txt or ("title" in txt and "Department"
in txt)`. -/
def swiggyBlobMarker (s : ScriptTag) : Bool :=
  let txt := s.content.getD ""
  strContains txt "job_application_url" ||
    (strContains txt "title" && strContains txt "Department")

/-- Swiggy blob pair: the link capture is emitted as-is (no base-URL
resolution in this layer). -/
def swiggyBlobMk (p : String × String) : List JobRecord :=
  [⟨"Swiggy", .str p.1, .str "India", .str p.2⟩]

def swiggyBlobLayer (scripts : List ScriptTag) : List JobRecord :=
  blobGo swiggyBlobMarker swiggyBlobMk 20 scripts

def swiggyKeywords : List String := ["job", "career", "opening", "apply"]

def swiggyAnchorLayer (anchors : List Anchor) : List JobRecord :=
  anchorGo "Swiggy" "https://careers.swiggy.com" swiggyKeywords [] anchors

def swiggyHtmlLayer : Option Response → List JobRecord
  | none => []
  | some resp =>
    if !(swiggyLdLayer resp.scripts).isEmpty then swiggyLdLayer resp.scripts
    else if !(swiggyBlobLayer resp.scripts).isEmpty then swiggyBlobLayer resp.scripts
    else swiggyAnchorLayer resp.anchors

def scrape_swiggy (env : Env) : List JobRecord :=
  if (swiggyApiLayer env).isEmpty then swiggyHtmlLayer env.swiggyHtml
  else swiggyApiLayer env

/-- The orchestrator `scrape_all`: concatenates the four extractor outputs in source
order. -/
def scrape_all (env : Env) : List JobRecord :=
  scrape_google env ++ scrape_microsoft env ++ scrape_zomato env ++ scrape_swiggy env

/-- The keyword list of src/filter.py. -/
def KEYWORDS : List String :=
  ["AI", "Artificial Intelligence", "Machine Learning", "ML", "Deep Learning",
   "Data", "Data Science", "Data Engineer", "Data Analyst", "SDE",
   "Software Engineer", "Software Developer", "Software Development",
   "Backend", "Backend Engineer", "Frontend", "Frontend Engineer",
   "Full Stack", "Fullstack", "NLP", "Computer Vision", "GenAI", "LLM"]

/-- The filter predicate of src/filter.py. -/
def is_relevant (title : String) : Bool :=
  KEYWORDS.any fun keyword => strContains (pyLower title) (pyLower keyword)

/-- One row of the `jobs` table (src/database.py); `id` is omitted since
no claim mentions it, and `date_scraped` is the caller-visible timestamp
string. -/
structure DbRow where
  company : String
  title : String
  location : String
  link : String
  date_scraped : String
deriving DecidableEq

/-- The duplicate check of src/database.py: true iff no stored row has this
link. -/
def is_new_job (db : List DbRow) (link : String) : Bool :=
  !db.any fun row => decide (row.link = link)

/-- The persistence function of src/database.py: an INSERT against the UNIQUE(link)
constraint; the `sqlite3.IntegrityError` raised on a duplicate link is
swallowed, leaving the table unchanged.  `date` stands for
`datetime.now().isoformat()`. -/
def save_job (db : List DbRow) (company title location link date : String) :
    List DbRow :=
  if db.any (fun row => decide (row.link = link)) then db
  else db ++ [⟨company, title, location, link, date⟩]

/-- Keeps the first anchor for each distinct raw `href`; this is exactly
how `seen_links` evolves in the anchor-fallback loop once the keep test is
separated out (`anchorGo` is proved equal to a filter followed by this
pass). -/
def dedupAnchors (seen : List String) : List Anchor → List Anchor
  | [] => []
  | a :: rest =>
    if a.href ∈ seen then dedupAnchors seen rest
    else a :: dedupAnchors (a.href :: seen) rest

/-- Every findall pair of every script of the response has two non-empty
captures.  This holds for every real response because each extraction
pattern's capture groups (`[^"]{5,80}`, `[^"]{4,80}`, `[^"]+`) all require
at least one character. -/
def respPairsNE (o : Option Response) : Prop :=
  ∀ r, o = some r → ∀ s ∈ r.scripts, ∀ p ∈ s.blobPairs, p.1 ≠ "" ∧ p.2 ≠ ""

/-- A JSON-LD item is benign when, if it is a `JobPosting` object, its
`title` and `url` entries are truthy (non-empty strings in particular). -/
def ldItemValid (j : Json) : Prop :=
  ∀ kvs, j = Json.obj kvs →
    ((kvs.lookup "@type").getD .null).eqStr "JobPosting" = true →
    ((kvs.lookup "title").getD (.str "")).truthy = true ∧
    ((kvs.lookup "url").getD (.str "")).truthy = true

/-- Every JSON-LD item of every ld+json script of the response is
benign. -/
def respLdValid (o : Option Response) : Prop :=
  ∀ r, o = some r → ∀ s ∈ r.scripts, s.isLd = true →
    ∀ d, s.ldJson = some d → ∀ item ∈ jsonItems d, ldItemValid item

/-- The JSON-API failure modes named by the error-handling spec for one
endpoint attempt: transport exception, non-200 status, or JSON parse
failure. -/
def respFails (o : Option Response) : Prop :=
  o = none ∨ (∃ r, o = some r ∧ r.status ≠ 200) ∨ (∃ r, o = some r ∧ r.json = none)

/-- The environment in which every fetch raises a transport error. -/
def envNone : Env :=
  ⟨none, none, none, none, none, none, none, none, none, none, none, none⟩

/-- A Microsoft search response whose job list holds the same posting
twice (same `jobId`, hence the same constructed link). -/
def msJobC1 : Json :=
  Json.jobj [("title", .str "Software Engineer"), ("jobId", .str "174")]

def respC1 : Response :=
  { status := 200, contentType := "application/json",
    json := some (Json.jobj [("jobs", Json.jarr [msJobC1, msJobC1])]),
    scripts := [], anchors := [] }

def envC1 : Env := { envNone with msSearch1 := some respC1 }

/-- A Zomato careers page whose only ld+json block is a `JobPosting` with
no `title` and no `url`. -/
def ldScriptC2 : ScriptTag :=
  { isLd := true, content := some "\x7b\x22@type\x22: \x22JobPosting\x22\x7d",
    ldJson := some (Json.jobj [("@type", .str "JobPosting")]), blobPairs := [] }

def respC2 : Response :=
  { status := 200, contentType := "text/html", json := none,
    scripts := [ldScriptC2], anchors := [] }

def envC2 : Env := { envNone with zomatoHtml := some respC2 }

/-- A Microsoft search response with one job that has no `location` and no
`primaryLocation` entry. -/
def msJobC3 : JsonObj :=
  JsonObj.ofList [("title", .str "Software Engineer"), ("jobId", .str "7")]

def respC3 : Response :=
  { status := 200, contentType := "application/json",
    json := some (Json.jobj [("jobs", Json.jarr [Json.obj msJobC3])]),
    scripts := [], anchors := [] }

def envC3 : Env := { envNone with msSearch1 := some respC3 }

/-- A Zomato careers page fetched with HTTP status 404 whose body still
contains a qualifying anchor. -/
def anchorC4 : Anchor :=
  { href := "https://www.zomato.com/careers/engineering",
    text := "Engineering Opportunities" }

def respC4 : Response :=
  { status := 404, contentType := "text/html", json := none,
    scripts := [], anchors := [anchorC4] }

def envC4 : Env := { envNone with zomatoHtml := some respC4 }

/-- A Google careers page whose ld+json block lists the same `JobPosting`
twice. -/
def gPostC5 : Json :=
  Json.jobj [("@type", .str "JobPosting"), ("title", .str "ML Engineer"),
    ("url", .str "https://careers.google.com/jobs/results/9")]

def ldScriptC5 : ScriptTag :=
  { isLd := true,
    content := some "[\x7b\x22@type\x22: \x22JobPosting\x22, \x22title\x22: \x22ML Engineer\x22, \x22url\x22: \x22https://careers.google.com/jobs/results/9\x22\x7d, \x7b\x22@type\x22: \x22JobPosting\x22, \x22title\x22: \x22ML Engineer\x22, \x22url\x22: \x22https://careers.google.com/jobs/results/9\x22\x7d]",
    ldJson := some (Json.jarr [gPostC5, gPostC5]), blobPairs := [] }

def respC5 : Response :=
  { status := 200, contentType := "text/html", json := none,
    scripts := [ldScriptC5], anchors := [] }

def envC5 : Env := { envNone with googleResp := some respC5 }

def gRecC5 : JobRecord :=
  ⟨"Google", .str "ML Engineer", .str "India",
    .str "https://careers.google.com/jobs/results/9"⟩

/-- An anchor whose visible text contains the keyword "jobs" but whose
href contains no job-related keyword. -/
def anchorC6 : Anchor :=
  { href := "https://x.example/page", text := "Apply for great jobs here" }

def respC6 : Response :=
  { status := 200, contentType := "text/html", json := none,
    scripts := [], anchors := [anchorC6] }

def envC6 : Env := { envNone with zomatoHtml := some respC6 }

/-- A Swiggy careers page whose embedded script carries a relative
`job_application_url`; the findall pair is exactly what the source
pattern extracts from this content. -/
def blobScriptC7 : ScriptTag :=
  { isLd := false,
    content := some "var data = [\x7b\x22title\x22: \x22Platform Engineer Role\x22, \x22job_application_url\x22: \x22/apply/1\x22\x7d];",
    ldJson := none,
    blobPairs := [("Platform Engineer Role", "/apply/1")] }

def respC7 : Response :=
  { status := 200, contentType := "text/html", json := none,
    scripts := [blobScriptC7], anchors := [] }

def envC7 : Env := { envNone with swiggyHtml := some respC7 }

/-- Two anchors whose raw hrefs differ but resolve to the same absolute
link (used to show the dedup key is the raw href). -/
def anchorC10a : Anchor :=
  { href := "https://www.zomato.com/careers", text := "Zomato career openings" }

def anchorC10b : Anchor :=
  { href := "/careers", text := "See all career roles at Zomato" }

theorem string_append_ne (a b : String) (h : a ≠ "") : a ++ b ≠ "" := by
  intro he
  apply h
  have hd : a.data ++ b.data = [] := by
    have := congrArg String.data he
    rwa [String.data_append] at this
  have : a.data = [] := (List.append_eq_nil.mp hd).1
  cases a
  simp_all

theorem string_ne_of_len_gt (s : String) (n : Nat) (h : s.length > n) : s ≠ "" := by
  intro he
  rw [he] at h
  exact Nat.not_lt_zero n h

theorem chListPre_extend (p : List Char) :
    ∀ l m, chListPre p l = true → chListPre p (l ++ m) = true := by
  induction p with
  | nil => intro l m _; rfl
  | cons c cs ih =>
    intro l m h
    cases l with
    | nil => exact absurd h (by simp [chListPre])
    | cons d ds =>
      simp only [chListPre, Bool.and_eq_true, decide_eq_true_eq] at h ⊢
      exact ⟨h.1, ih ds m h.2⟩

theorem pyStartsWith_extend (s t pre : String) (h : pyStartsWith s pre = true) :
    pyStartsWith (s ++ t) pre = true := by
  unfold pyStartsWith at h ⊢
  rw [String.data_append]
  exact chListPre_extend _ _ _ h

theorem dedupByLink_sub :
    ∀ (l : List JobRecord) (seen : List Json) (r : JobRecord),
      r ∈ dedupByLink seen l → r ∈ l := by
  intro l
  induction l with
  | nil => intro seen r h; simp [dedupByLink] at h
  | cons x xs ih =>
    intro seen r h
    by_cases hx : x.link ∈ seen
    · rw [dedupByLink, if_pos hx] at h
      exact List.mem_cons_of_mem _ (ih _ _ h)
    · rw [dedupByLink, if_neg hx] at h
      rcases List.mem_cons.mp h with h | h
      · exact h ▸ List.mem_cons_self _ _
      · exact List.mem_cons_of_mem _ (ih _ _ h)

theorem dedupByLink_nodup :
    ∀ (l : List JobRecord) (seen : List Json),
      ((dedupByLink seen l).map JobRecord.link).Nodup ∧
        ∀ r ∈ dedupByLink seen l, r.link ∉ seen := by
  intro l
  induction l with
  | nil => intro seen; simp [dedupByLink]
  | cons x xs ih =>
    intro seen
    by_cases hx : x.link ∈ seen
    · rw [dedupByLink, if_pos hx]
      exact ih seen
    · rw [dedupByLink, if_neg hx]
      refine ⟨?_, ?_⟩
      · rw [List.map_cons, List.nodup_cons]
        refine ⟨?_, (ih (x.link :: seen)).1⟩
        intro hmem
        rcases List.mem_map.mp hmem with ⟨r, hr, hlink⟩
        exact (ih (x.link :: seen)).2 r hr (hlink ▸ List.mem_cons_self _ _)
      · intro r hr
        rcases List.mem_cons.mp hr with h | h
        · exact h ▸ hx
        · exact fun hmem =>
            (ih (x.link :: seen)).2 r h (List.mem_cons_of_mem _ hmem)

theorem dedupAnchors_nodup :
    ∀ (l : List Anchor) (seen : List String),
      ((dedupAnchors seen l).map Anchor.href).Nodup ∧
        ∀ a ∈ dedupAnchors seen l, a.href ∉ seen := by
  intro l
  induction l with
  | nil => intro seen; simp [dedupAnchors]
  | cons x xs ih =>
    intro seen
    by_cases hx : x.href ∈ seen
    · rw [dedupAnchors, if_pos hx]
      exact ih seen
    · rw [dedupAnchors, if_neg hx]
      refine ⟨?_, ?_⟩
      · rw [List.map_cons, List.nodup_cons]
        refine ⟨?_, (ih (x.href :: seen)).1⟩
        intro hmem
        rcases List.mem_map.mp hmem with ⟨a, ha, hhref⟩
        exact (ih (x.href :: seen)).2 a ha (hhref ▸ List.mem_cons_self _ _)
      · intro a ha
        rcases List.mem_cons.mp ha with h | h
        · exact h ▸ hx
        · exact fun hmem =>
            (ih (x.href :: seen)).2 a h (List.mem_cons_of_mem _ hmem)

theorem dedupAnchors_sub :
    ∀ (l : List Anchor) (seen : List String) (a : Anchor),
      a ∈ dedupAnchors seen l → a ∈ l := by
  intro l
  induction l with
  | nil => intro seen a h; simp [dedupAnchors] at h
  | cons x xs ih =>
    intro seen a h
    by_cases hx : x.href ∈ seen
    · rw [dedupAnchors, if_pos hx] at h
      exact List.mem_cons_of_mem _ (ih _ _ h)
    · rw [dedupAnchors, if_neg hx] at h
      rcases List.mem_cons.mp h with h | h
      · exact h ▸ List.mem_cons_self _ _
      · exact List.mem_cons_of_mem _ (ih _ _ h)

theorem anchorGo_eq (c b : String) (kws : List String) :
    ∀ (l : List Anchor) (seen : List String),
      anchorGo c b kws seen l =
        (dedupAnchors seen (l.filter (anchorKeep kws))).map (anchorRec c b) := by
  intro l
  induction l with
  | nil => intro seen; rfl
  | cons a rest ih =>
    intro seen
    by_cases hk : anchorKeep kws a = true
    · by_cases hs : a.href ∈ seen
      · rw [anchorGo, if_pos hk, if_pos hs, List.filter_cons_of_pos hk,
          dedupAnchors, if_pos hs]
        exact ih seen
      · rw [anchorGo, if_pos hk, if_neg hs, List.filter_cons_of_pos hk,
          dedupAnchors, if_neg hs, List.map_cons]
        rw [ih (a.href :: seen)]
    · have hk2 : ¬ anchorKeep kws a = true := hk
      rw [anchorGo, if_neg hk2, List.filter_cons_of_neg (by simpa using hk)]
      exact ih seen

theorem runPartial_mem (f : Json → Option (Option JobRecord)) :
    ∀ (l : List Json) (r : JobRecord),
      r ∈ (runPartial f l).1 → ∃ x ∈ l, f x = some (some r) := by
  intro l
  induction l with
  | nil => intro r h; simp [runPartial] at h
  | cons x xs ih =>
    intro r h
    cases hfx : f x with
    | none => rw [runPartial, hfx] at h; simp at h
    | some o =>
      cases o with
      | none =>
        rw [runPartial, hfx] at h
        rcases ih r h with ⟨y, hy, hfy⟩
        exact ⟨y, List.mem_cons_of_mem _ hy, hfy⟩
      | some r2 =>
        rw [runPartial, hfx] at h
        rcases List.mem_cons.mp h with h | h
        · exact ⟨x, List.mem_cons_self _ _, h ▸ hfx⟩
        · rcases ih r h with ⟨y, hy, hfy⟩
          exact ⟨y, List.mem_cons_of_mem _ hy, hfy⟩

theorem runLd_mem (f : Json → Option (Option JobRecord)) (s : ScriptTag)
    (r : JobRecord) (h : r ∈ runLd f s) :
    ∃ d, s.ldJson = some d ∧ ∃ item ∈ jsonItems d, f item = some (some r) := by
  cases hld : s.ldJson with
  | none => rw [runLd, hld] at h; simp at h
  | some d =>
    rw [runLd, hld] at h
    exact ⟨d, rfl, runPartial_mem f _ r h⟩

theorem ldLayer_mem (f : Json → Option (Option JobRecord))
    (scripts : List ScriptTag) (r : JobRecord)
    (h : r ∈ (scripts.filter (fun s => s.isLd)).flatMap (runLd f)) :
    ∃ s ∈ scripts, s.isLd = true ∧
      ∃ d, s.ldJson = some d ∧ ∃ item ∈ jsonItems d, f item = some (some r) := by
  rcases List.mem_flatMap.mp h with ⟨s, hs, hr⟩
  rcases List.mem_filter.mp hs with ⟨hmem, hld⟩
  exact ⟨s, hmem, hld, runLd_mem f s r hr⟩

theorem blobGo_mem (marker : ScriptTag → Bool)
    (mk : String × String → List JobRecord) (cap : Nat) :
    ∀ (l : List ScriptTag) (r : JobRecord),
      r ∈ blobGo marker mk cap l →
      ∃ s ∈ l, ∃ p ∈ s.blobPairs, r ∈ mk p := by
  intro l
  induction l with
  | nil => intro r h; simp [blobGo] at h
  | cons s rest ih =>
    intro r h
    by_cases hm : marker s = true
    · rw [blobGo, if_pos hm] at h
      by_cases he : ((s.blobPairs.take cap).flatMap mk).isEmpty = true
      · rw [if_pos he] at h
        rcases ih r h with ⟨s2, hs2, hp⟩
        exact ⟨s2, List.mem_cons_of_mem _ hs2, hp⟩
      · rw [if_neg he] at h
        rcases List.mem_flatMap.mp h with ⟨p, hp, hr⟩
        exact ⟨s, List.mem_cons_self _ _, p, List.mem_of_mem_take hp, hr⟩
    · rw [blobGo, if_neg hm] at h
      rcases ih r h with ⟨s2, hs2, hp⟩
      exact ⟨s2, List.mem_cons_of_mem _ hs2, hp⟩

theorem startsWith_http_ne (s : String) (h : pyStartsWith s "http" = true) :
    s ≠ "" := by
  intro he
  subst he
  exact absurd h (by decide)

theorem mkChecked_sound (c : String) (t l k : Json) (r : JobRecord)
    (h : mkChecked c t l k = some (some r)) :
    r = ⟨c, t, l, k⟩ ∧ t.truthy = true ∧ k.truthy = true := by
  rw [mkChecked] at h
  split at h
  · rename_i hc
    simp only [Bool.and_eq_true] at hc
    exact ⟨(Option.some.inj (Option.some.inj h)).symm, hc.1, hc.2⟩
  · simp at h

theorem googleLdItem_valid (x : Json) (r : JobRecord)
    (h : googleLdItem x = some (some r)) :
    r.title.truthy = true ∧ r.link.truthy = true := by
  cases x with
  | obj kvs =>
    rw [googleLdItem] at h
    split at h
    · cases hl : googleLocality kvs with
      | none => rw [hl] at h; simp at h
      | some location =>
        rw [hl] at h
        rcases mkChecked_sound _ _ _ _ _ h with ⟨rfl, h1, h2⟩
        exact ⟨h1, h2⟩
    · simp at h
  | null => simp [googleLdItem] at h
  | bool b => simp [googleLdItem] at h
  | num n => simp [googleLdItem] at h
  | str s => simp [googleLdItem] at h
  | arr xs => simp [googleLdItem] at h

theorem msApiItem_valid (x : Json) (r : JobRecord)
    (h : msApiItem x = some (some r)) :
    r.title.truthy = true ∧ r.link.truthy = true := by
  cases x with
  | obj kvs =>
    rw [msApiItem] at h
    rcases mkChecked_sound _ _ _ _ _ h with ⟨rfl, h1, h2⟩
    exact ⟨h1, h2⟩
  | null => simp [msApiItem] at h
  | bool b => simp [msApiItem] at h
  | num n => simp [msApiItem] at h
  | str s => simp [msApiItem] at h
  | arr xs => simp [msApiItem] at h

theorem zomatoApiItem_valid (x : Json) (r : JobRecord)
    (h : zomatoApiItem x = some (some r)) :
    r.title.truthy = true ∧ r.link.truthy = true := by
  cases x with
  | obj kvs =>
    rw [zomatoApiItem] at h
    rcases mkChecked_sound _ _ _ _ _ h with ⟨rfl, h1, h2⟩
    exact ⟨h1, h2⟩
  | null => simp [zomatoApiItem] at h
  | bool b => simp [zomatoApiItem] at h
  | num n => simp [zomatoApiItem] at h
  | str s => simp [zomatoApiItem] at h
  | arr xs => simp [zomatoApiItem] at h

theorem swiggyApiItem_valid (x : Json) (r : JobRecord)
    (h : swiggyApiItem x = some (some r)) :
    r.title.truthy = true ∧ r.link.truthy = true := by
  cases x with
  | obj kvs =>
    rw [swiggyApiItem] at h
    rcases mkChecked_sound _ _ _ _ _ h with ⟨rfl, h1, h2⟩
    exact ⟨h1, h2⟩
  | null => simp [swiggyApiItem] at h
  | bool b => simp [swiggyApiItem] at h
  | num n => simp [swiggyApiItem] at h
  | str s => simp [swiggyApiItem] at h
  | arr xs => simp [swiggyApiItem] at h

theorem zomatoApiGo_prop (P : JobRecord → Prop)
    (hitem : ∀ x r, zomatoApiItem x = some (some r) → P r) :
    ∀ (os : List (Option Response)) (acc : List JobRecord),
      (∀ r ∈ acc, P r) → ∀ r ∈ zomatoApiGo os acc, P r := by
  intro os
  induction os with
  | nil => intro acc hacc r h; rw [zomatoApiGo] at h; exact hacc r h
  | cons o rest ih =>
    intro acc hacc r h
    cases o with
    | none => rw [zomatoApiGo] at h; exact ih acc hacc r h
    | some resp =>
      rw [zomatoApiGo] at h
      split at h
      · split at h
        · exact ih acc hacc r h
        · split at h
          · exact ih acc hacc r h
          · rename_i items _
            have hacc2 : ∀ r2 ∈ acc ++ (runPartial zomatoApiItem items).1, P r2 := by
              intro r2 h2
              rcases List.mem_append.mp h2 with h2 | h2
              · exact hacc r2 h2
              · rcases runPartial_mem _ _ _ h2 with ⟨x, _, hx⟩
                exact hitem x r2 hx
            split at h
            · exact hacc2 r h
            · exact ih _ hacc2 r h
      · exact ih acc hacc r h

theorem swiggyApiGo_prop (P : JobRecord → Prop)
    (hitem : ∀ x r, swiggyApiItem x = some (some r) → P r) :
    ∀ (os : List (Option Response)) (acc : List JobRecord),
      (∀ r ∈ acc, P r) → ∀ r ∈ swiggyApiGo os acc, P r := by
  intro os
  induction os with
  | nil => intro acc hacc r h; rw [swiggyApiGo] at h; exact hacc r h
  | cons o rest ih =>
    intro acc hacc r h
    cases o with
    | none => rw [swiggyApiGo] at h; exact ih acc hacc r h
    | some resp =>
      rw [swiggyApiGo] at h
      split at h
      · split at h
        · exact ih acc hacc r h
        · split at h
          · exact ih acc hacc r h
          · rename_i items _
            have hacc2 : ∀ r2 ∈ acc ++ (runPartial swiggyApiItem items).1, P r2 := by
              intro r2 h2
              rcases List.mem_append.mp h2 with h2 | h2
              · exact hacc r2 h2
              · rcases runPartial_mem _ _ _ h2 with ⟨x, _, hx⟩
                exact hitem x r2 hx
            split at h
            · exact hacc2 r h
            · exact ih _ hacc2 r h
      · exact ih acc hacc r h

theorem msApiStep_prop (P : JobRecord → Prop)
    (hitem : ∀ x r, msApiItem x = some (some r) → P r)
    (o : Option Response) (acc : List JobRecord) (hacc : ∀ r ∈ acc, P r) :
    ∀ r ∈ (msApiStep o acc).1, P r := by
  cases o with
  | none => rw [msApiStep]; exact hacc
  | some resp =>
    rw [msApiStep]
    split
    · split
      · exact hacc
      · split
        · exact hacc
        · rename_i items _
          intro r h
          rcases List.mem_append.mp h with h | h
          · exact hacc r h
          · rcases runPartial_mem _ _ _ h with ⟨x, _, hx⟩
            exact hitem x r hx
    · exact hacc

theorem msApiLayer_prop (P : JobRecord → Prop)
    (hitem : ∀ x r, msApiItem x = some (some r) → P r) (env : Env) :
    ∀ r ∈ msApiLayer env, P r := by
  rw [msApiLayer]
  have h1 : ∀ r ∈ (msApiStep env.msSearch1 []).1, P r :=
    msApiStep_prop P hitem _ _ (by simp)
  split
  · exact h1
  · exact msApiStep_prop P hitem _ _ h1

theorem resolveUrl_http (base href : String)
    (hb : pyStartsWith base "http" = true) :
    pyStartsWith (resolveUrl base href) "http" = true := by
  rw [resolveUrl]
  split
  · assumption
  · exact pyStartsWith_extend base href "http" hb

theorem resolveUrl_ne (base href : String) (hb : base ≠ "") :
    resolveUrl base href ≠ "" := by
  rw [resolveUrl]
  split
  · rename_i hs
    exact startsWith_http_ne _ hs
  · exact string_append_ne _ _ hb

theorem anchorRec_valid (c b : String) (hb : b ≠ "") (a : Anchor)
    (ht : a.text.length > 8) :
    (anchorRec c b a).title.truthy = true ∧
      (anchorRec c b a).link.truthy = true := by
  constructor
  · simp only [anchorRec, Json.truthy, decide_eq_true_eq]
    exact string_ne_of_len_gt _ _ ht
  · simp only [anchorRec, Json.truthy, decide_eq_true_eq]
    exact resolveUrl_ne _ _ hb

theorem anchorLayer_valid (c b : String) (hb : b ≠ "")
    (kws : List String) (anchors : List Anchor) :
    ∀ r ∈ anchorGo c b kws [] anchors,
      r.title.truthy = true ∧ r.link.truthy = true := by
  intro r hr
  rw [anchorGo_eq] at hr
  rcases List.mem_map.mp hr with ⟨a, ha, rfl⟩
  have hk := (List.mem_filter.mp (dedupAnchors_sub _ _ _ ha)).2
  simp only [anchorKeep, Bool.and_eq_true, decide_eq_true_eq] at hk
  exact anchorRec_valid c b hb a hk.1

theorem google_records_valid (env : Env) (hp : respPairsNE env.googleResp) :
    ∀ r ∈ scrape_google env, r.title.truthy = true ∧ r.link.truthy = true := by
  intro r hr
  rw [scrape_google] at hr
  have hr2 := dedupByLink_sub _ _ _ hr
  cases hresp : env.googleResp with
  | none => rw [hresp, googleRaw] at hr2; exact absurd hr2 (List.not_mem_nil r)
  | some resp =>
    rw [hresp, googleRaw] at hr2
    split at hr2
    · rw [googleBlobLayer] at hr2
      rcases blobGo_mem _ _ _ _ _ hr2 with ⟨s, hs, p, hp2, hrp⟩
      rw [googleBlobMk, List.mem_singleton] at hrp
      subst hrp
      constructor
      · simp only [Json.truthy, decide_eq_true_eq]
        exact (hp resp hresp s hs p hp2).1
      · simp only [Json.truthy, decide_eq_true_eq]
        exact string_append_ne _ _ (by decide)
    · rw [googleLdLayer] at hr2
      rcases ldLayer_mem _ _ _ hr2 with ⟨s, hs, hld, d, hd, item, hitem, hfi⟩
      exact googleLdItem_valid _ _ hfi

theorem microsoft_records_valid (env : Env) (hp : respPairsNE env.msHtml) :
    ∀ r ∈ scrape_microsoft env, r.title.truthy = true ∧ r.link.truthy = true := by
  intro r hr
  rw [scrape_microsoft] at hr
  split at hr
  · cases hresp : env.msHtml with
    | none =>
      rw [hresp, msHtmlLayer] at hr
      exact absurd hr (List.not_mem_nil r)
    | some resp =>
      rw [hresp, msHtmlLayer] at hr
      rcases blobGo_mem _ _ _ _ _ hr with ⟨s, hs, p, hp2, hrp⟩
      rw [msBlobMk, List.mem_singleton] at hrp
      subst hrp
      constructor
      · simp only [Json.truthy, decide_eq_true_eq]
        exact (hp resp hresp s hs p hp2).1
      · simp only [Json.truthy, decide_eq_true_eq]
        exact string_append_ne _ _ (by decide)
  · exact msApiLayer_prop _ (fun x r2 h => msApiItem_valid x r2 h) env r hr

theorem zomato_records_valid (env : Env) (hp : respPairsNE env.zomatoHtml)
    (hl : respLdValid env.zomatoHtml) :
    ∀ r ∈ scrape_zomato env, r.title.truthy = true ∧ r.link.truthy = true := by
  intro r hr
  rw [scrape_zomato] at hr
  split at hr
  · cases hresp : env.zomatoHtml with
    | none =>
      rw [hresp, zomatoHtmlLayer] at hr
      exact absurd hr (List.not_mem_nil r)
    | some resp =>
      rw [hresp, zomatoHtmlLayer] at hr
      split at hr
      · rw [zomatoLdLayer] at hr
        rcases ldLayer_mem _ _ _ hr with ⟨s, hs, hld, d, hd, item, hitem, hfi⟩
        have hv := hl resp hresp s hs hld d hd item hitem
        cases item with
        | obj kvs =>
          rw [zomatoLdItem] at hfi
          split at hfi
          · rename_i hty
            have hvv := hv kvs rfl hty
            rcases Option.some.inj (Option.some.inj hfi) with h
            rw [← h]
            exact hvv
          · simp at hfi
        | null => simp [zomatoLdItem] at hfi
        | bool b => simp [zomatoLdItem] at hfi
        | num n => simp [zomatoLdItem] at hfi
        | str s2 => simp [zomatoLdItem] at hfi
        | arr xs => simp [zomatoLdItem] at hfi
      · split at hr
        · rw [zomatoBlobLayer] at hr
          rcases blobGo_mem _ _ _ _ _ hr with ⟨s, hs, p, hp2, hrp⟩
          rw [zomatoBlobMk] at hrp
          split at hrp
          · rw [List.mem_singleton] at hrp
            subst hrp
            have hpne := hp resp hresp s hs p hp2
            constructor
            · simp only [Json.truthy, decide_eq_true_eq]
              exact hpne.1
            · simp only [Json.truthy, decide_eq_true_eq]
              exact resolveUrl_ne _ _ (by decide)
          · simp at hrp
        · exact anchorLayer_valid _ _ (by decide) _ _ r hr
  · exact zomatoApiGo_prop _ (fun x r2 h => zomatoApiItem_valid x r2 h) _ []
      (by simp) r hr

theorem swiggy_records_valid (env : Env) (hp : respPairsNE env.swiggyHtml)
    (hl : respLdValid env.swiggyHtml) :
    ∀ r ∈ scrape_swiggy env, r.title.truthy = true ∧ r.link.truthy = true := by
  intro r hr
  rw [scrape_swiggy] at hr
  split at hr
  · cases hresp : env.swiggyHtml with
    | none =>
      rw [hresp, swiggyHtmlLayer] at hr
      exact absurd hr (List.not_mem_nil r)
    | some resp =>
      rw [hresp, swiggyHtmlLayer] at hr
      split at hr
      · rw [swiggyLdLayer] at hr
        rcases ldLayer_mem _ _ _ hr with ⟨s, hs, hld, d, hd, item, hitem, hfi⟩
        have hv := hl resp hresp s hs hld d hd item hitem
        cases item with
        | obj kvs =>
          rw [swiggyLdItem] at hfi
          split at hfi
          · rename_i hty
            have hvv := hv kvs rfl hty
            rcases Option.some.inj (Option.some.inj hfi) with h
            rw [← h]
            exact hvv
          · simp at hfi
        | null => simp [swiggyLdItem] at hfi
        | bool b => simp [swiggyLdItem] at hfi
        | num n => simp [swiggyLdItem] at hfi
        | str s2 => simp [swiggyLdItem] at hfi
        | arr xs => simp [swiggyLdItem] at hfi
      · split at hr
        · rw [swiggyBlobLayer] at hr
          rcases blobGo_mem _ _ _ _ _ hr with ⟨s, hs, p, hp2, hrp⟩
          rw [swiggyBlobMk, List.mem_singleton] at hrp
          subst hrp
          have hpne := hp resp hresp s hs p hp2
          constructor
          · simp only [Json.truthy, decide_eq_true_eq]
            exact hpne.1
          · simp only [Json.truthy, decide_eq_true_eq]
            exact hpne.2
        · exact anchorLayer_valid _ _ (by decide) _ _ r hr
  · exact swiggyApiGo_prop _ (fun x r2 h => swiggyApiItem_valid x r2 h) _ []
      (by simp) r hr

/-- C8: `save_job` is idempotent under the unique-link constraint — saving
a link a second time is a silent no-op that leaves the table unchanged, a
table whose links are pairwise distinct stays that way under any save (so
at most one row per distinct link ever exists), and `is_new_job link` is
true iff no stored row has that link. -/
theorem C8_save_job_idempotent :
    (∀ (db : List DbRow) (c t l link d c2 t2 l2 d2 : String),
      save_job (save_job db c t l link d) c2 t2 l2 link d2 =
        save_job db c t l link d) ∧
    (∀ (db : List DbRow) (c t l link d : String),
      is_new_job db link = false → save_job db c t l link d = db) ∧
    (∀ (db : List DbRow) (c t l link d : String),
      (db.map DbRow.link).Nodup →
      ((save_job db c t l link d).map DbRow.link).Nodup) ∧
    (∀ (db : List DbRow) (link : String),
      is_new_job db link = true ↔ ∀ row ∈ db, row.link ≠ link) := by
  refine ⟨?_, ?_, ?_, ?_⟩
  · intro db c t l link d c2 t2 l2 d2
    have hsaved : ((save_job db c t l link d).any
        (fun row => decide (row.link = link))) = true := by
      by_cases h : db.any (fun row => decide (row.link = link)) = true
      · rw [save_job, if_pos h]; exact h
      · rw [save_job, if_neg h]; simp [List.any_append]
    rw [save_job, if_pos hsaved]
  · intro db c t l link d h
    have hb : db.any (fun row => decide (row.link = link)) = true := by
      rw [is_new_job] at h
      cases hb : db.any (fun row => decide (row.link = link)) with
      | false => rw [hb] at h; simp at h
      | true => rfl
    rw [save_job, if_pos hb]
  · intro db c t l link d hn
    by_cases h : db.any (fun row => decide (row.link = link)) = true
    · rw [save_job, if_pos h]; exact hn
    · rw [save_job, if_neg h, List.map_append]
      have hno : ∀ row ∈ db, row.link ≠ link := by
        intro row hrow heq
        exact h (List.any_eq_true.mpr ⟨row, hrow, by simp [heq]⟩)
      refine List.Nodup.append hn (by simp) ?_
      intro a ha hb2
      simp only [List.map_cons, List.map_nil, List.mem_singleton] at hb2
      rcases List.mem_map.mp ha with ⟨row, hrow, hrl⟩
      exact hno row hrow (hrl.trans hb2)
  · intro db link
    simp [is_new_job]

/-- Witness for C8 at concrete rows and links. -/
theorem C8_witness :
    save_job (save_job [] "G" "T" "L" "https://g/1" "d1")
        "G2" "T2" "L2" "https://g/1" "d2" =
      save_job [] "G" "T" "L" "https://g/1" "d1" ∧
    save_job [⟨"G", "T", "L", "https://g/1", "d0"⟩]
        "G" "T" "L" "https://g/1" "d1" =
      [⟨"G", "T", "L", "https://g/1", "d0"⟩] ∧
    ((save_job [] "G" "T" "L" "https://g/1" "d0").map DbRow.link).Nodup ∧
    is_new_job [⟨"G", "T", "L", "https://g/1", "d0"⟩] "https://g/2" = true :=
  ⟨C8_save_job_idempotent.1 [] "G" "T" "L" "https://g/1" "d1" "G2" "T2" "L2" "d2",
   C8_save_job_idempotent.2.1 _ "G" "T" "L" "https://g/1" "d1" (by decide),
   C8_save_job_idempotent.2.2.1 [] "G" "T" "L" "https://g/1" "d0" (by decide),
   (C8_save_job_idempotent.2.2.2 _ "https://g/2").mpr (by decide)⟩

/-- C9: `is_relevant` is case-insensitive — titles equal up to letter case
get the same verdict — and it returns true iff the lowercased title
contains the lowercase form of at least one keyword of `KEYWORDS` as a
substring. -/
theorem C9_is_relevant_case_insensitive :
    (∀ t t2 : String, pyLower t = pyLower t2 →
      is_relevant t = is_relevant t2) ∧
    (∀ t : String, is_relevant t = true ↔
      ∃ kw ∈ KEYWORDS, strContains (pyLower t) (pyLower kw) = true) := by
  constructor
  · intro t t2 h
    rw [is_relevant, is_relevant, h]
  · intro t
    rw [is_relevant]
    exact List.any_eq_true

/-- Witness for C9 at concrete titles. -/
theorem C9_witness :
    is_relevant "Senior mAcHiNe LeArNiNg Engineer" =
      is_relevant "SENIOR MACHINE LEARNING ENGINEER" ∧
    (is_relevant "Data Analyst" = true ↔
      ∃ kw ∈ KEYWORDS, strContains (pyLower "Data Analyst") (pyLower kw) = true) :=
  ⟨C9_is_relevant_case_insensitive.1 _ _ (by rfl),
   C9_is_relevant_case_insensitive.2 "Data Analyst"⟩

/-- C10: within one anchor-fallback pass the dedup key is the raw href —
the kept anchors have pairwise-distinct raw hrefs and the layer's output
is exactly their image, so at most one record is emitted per distinct raw
href; two emitted records can share a resolved link only when their raw
hrefs differ, which the concrete two-anchor run exhibits. -/
theorem C10_anchor_dedup_by_raw_href :
    (∀ anchors : List Anchor,
      ((dedupAnchors [] (anchors.filter (anchorKeep zomatoKeywords))).map
        Anchor.href).Nodup ∧
      zomatoAnchorLayer anchors =
        (dedupAnchors [] (anchors.filter (anchorKeep zomatoKeywords))).map
          (anchorRec "Zomato" "https://www.zomato.com")) ∧
    (∀ anchors : List Anchor,
      ((dedupAnchors [] (anchors.filter (anchorKeep swiggyKeywords))).map
        Anchor.href).Nodup ∧
      swiggyAnchorLayer anchors =
        (dedupAnchors [] (anchors.filter (anchorKeep swiggyKeywords))).map
          (anchorRec "Swiggy" "https://careers.swiggy.com")) ∧
    anchorC10a.href ≠ anchorC10b.href ∧
    (zomatoAnchorLayer [anchorC10a, anchorC10b]).map JobRecord.link =
      [Json.str "https://www.zomato.com/careers",
       Json.str "https://www.zomato.com/careers"] := by
  refine ⟨?_, ?_, by decide, by rfl⟩
  · intro anchors
    exact ⟨(dedupAnchors_nodup _ []).1, anchorGo_eq _ _ _ _ _⟩
  · intro anchors
    exact ⟨(dedupAnchors_nodup _ []).1, anchorGo_eq _ _ _ _ _⟩

/-- C6 counterexample: this anchor's visible text exceeds 8 characters
and contains the keyword "job", its href contains no job-related keyword,
yet the anchor-fallback pass of `scrape_zomato` emits nothing — the code
tests keywords only against the href, so a text-only keyword does not
qualify, contradicting the claim. -/
theorem C6_counterexample :
    anchorC6.text.length > 8 ∧
    strContains (pyLower anchorC6.text) "job" = true ∧
    (zomatoKeywords.any fun kw => strContains (pyLower anchorC6.href) kw) = false ∧
    scrape_zomato envC6 = [] :=
  ⟨by decide, by rfl, by rfl, by rfl⟩

/-- C6 (amended): the anchor-fallback layer keeps an anchor iff its
visible text exceeds 8 characters, its raw href was not already seen, and
its lowercased href contains at least one of that extractor's keywords;
keywords in the visible text do not qualify.  Formally: each layer equals
the keep-filter followed by first-per-href dedup, and the keep test is
exactly the text-length bound conjoined with an href keyword. -/
theorem C6_amended_href_keyword_filter :
    (∀ anchors : List Anchor,
      zomatoAnchorLayer anchors =
        (dedupAnchors [] (anchors.filter (anchorKeep zomatoKeywords))).map
          (anchorRec "Zomato" "https://www.zomato.com")) ∧
    (∀ anchors : List Anchor,
      swiggyAnchorLayer anchors =
        (dedupAnchors [] (anchors.filter (anchorKeep swiggyKeywords))).map
          (anchorRec "Swiggy" "https://careers.swiggy.com")) ∧
    (∀ (kws : List String) (a : Anchor),
      anchorKeep kws a = true ↔
        a.text.length > 8 ∧
          ∃ kw ∈ kws, strContains (pyLower a.href) kw = true) := by
  refine ⟨fun anchors => anchorGo_eq _ _ _ _ _,
    fun anchors => anchorGo_eq _ _ _ _ _, ?_⟩
  intro kws a
  simp [anchorKeep, List.any_eq_true]

/-- Witness for C6 (amended) at a concrete anchor list. -/
theorem C6_amended_witness :
    zomatoAnchorLayer [anchorC10a] =
      (dedupAnchors [] ([anchorC10a].filter (anchorKeep zomatoKeywords))).map
        (anchorRec "Zomato" "https://www.zomato.com") ∧
    (anchorKeep zomatoKeywords anchorC10a = true ↔
      anchorC10a.text.length > 8 ∧
        ∃ kw ∈ zomatoKeywords, strContains (pyLower anchorC10a.href) kw = true) :=
  ⟨C6_amended_href_keyword_filter.1 [anchorC10a],
   C6_amended_href_keyword_filter.2.2 zomatoKeywords anchorC10a⟩

/-- C7 counterexample: the Swiggy script-blob layer finds the relative
link "/apply/1" and emits it unchanged — not an absolute URL and not
resolved against any base URL. -/
theorem C7_counterexample :
    (scrape_swiggy envC7).map JobRecord.link = [Json.str "/apply/1"] ∧
    pyStartsWith "/apply/1" "http" = false :=
  ⟨by rfl, by rfl⟩

/-- C7 (amended): the anchor-fallback layers do resolve — every record
they emit links to a string carrying an http scheme, and a non-http href
is resolved by prefixing the employer's base URL
("https://www.zomato.com" for Zomato, "https://careers.swiggy.com" for
Swiggy); Zomato's script-blob layer resolves the same way.  Layers that
read links straight from JSON, and Swiggy's script-blob layer, emit the
source value unchanged, which may be relative. -/
theorem C7_amended_anchor_resolution :
    (∀ a : Anchor, pyStartsWith a.href "http" = false →
      (anchorRec "Zomato" "https://www.zomato.com" a).link =
        .str ("https://www.zomato.com" ++ a.href)) ∧
    (∀ a : Anchor, pyStartsWith a.href "http" = false →
      (anchorRec "Swiggy" "https://careers.swiggy.com" a).link =
        .str ("https://careers.swiggy.com" ++ a.href)) ∧
    (∀ (anchors : List Anchor) (r : JobRecord), r ∈ zomatoAnchorLayer anchors →
      ∃ s, r.link = Json.str s ∧ pyStartsWith s "http" = true) ∧
    (∀ (anchors : List Anchor) (r : JobRecord), r ∈ swiggyAnchorLayer anchors →
      ∃ s, r.link = Json.str s ∧ pyStartsWith s "http" = true) ∧
    (∀ p : String × String, pyStartsWith p.2 "http" = false →
      ∀ r ∈ zomatoBlobMk p, r.link = .str ("https://www.zomato.com" ++ p.2)) := by
  refine ⟨?_, ?_, ?_, ?_, ?_⟩
  · intro a h
    simp [anchorRec, resolveUrl, h]
  · intro a h
    simp [anchorRec, resolveUrl, h]
  · intro anchors r hr
    rw [zomatoAnchorLayer, anchorGo_eq] at hr
    rcases List.mem_map.mp hr with ⟨a, _, rfl⟩
    exact ⟨resolveUrl "https://www.zomato.com" a.href, rfl,
      resolveUrl_http _ _ (by rfl)⟩
  · intro anchors r hr
    rw [swiggyAnchorLayer, anchorGo_eq] at hr
    rcases List.mem_map.mp hr with ⟨a, _, rfl⟩
    exact ⟨resolveUrl "https://careers.swiggy.com" a.href, rfl,
      resolveUrl_http _ _ (by rfl)⟩
  · intro p h r hr
    rw [zomatoBlobMk] at hr
    split at hr
    · rw [List.mem_singleton] at hr
      subst hr
      simp [resolveUrl, h]
    · simp at hr

/-- C1 counterexample: in this run the Microsoft API layer returns the
same posting twice, `scrape_all` concatenates the extractor outputs
without any dedup, and the combined list carries the same link at two
distinct positions. -/
theorem C1_counterexample :
    (scrape_all envC1).map JobRecord.link =
      [Json.str "https://jobs.careers.microsoft.com/global/en/job/174",
       Json.str "https://jobs.careers.microsoft.com/global/en/job/174"] ∧
    ¬ ((scrape_all envC1).map JobRecord.link).Nodup :=
  ⟨by rfl, by decide⟩

/-- C1 (amended): only `scrape_google` runs a per-run link dedup — its
returned list never carries the same link at two distinct positions,
preserving first-seen order; `scrape_all` merely concatenates the four
extractor outputs and can return several records with the same link, as
the counterexample run shows. -/
theorem C1_amended_google_links_nodup (env : Env) :
    ((scrape_google env).map JobRecord.link).Nodup := by
  rw [scrape_google]
  exact (dedupByLink_nodup _ []).1

/-- C2 counterexample: a Zomato JSON-LD `JobPosting` block carrying no
title and no url is emitted as a record whose title and link are both the
empty string — the JSON-LD layers of `scrape_zomato` and `scrape_swiggy`
append without validating. -/
theorem C2_counterexample :
    scrape_zomato envC2 = [⟨"Zomato", .str "", .str "India", .str ""⟩] ∧
    (Json.str "").truthy = false :=
  ⟨by rfl, by rfl⟩

/-- C2 (amended): every record emitted by every layer of every extractor
has a truthy (for strings: non-empty) title and link, provided each
JSON-LD `JobPosting` block seen by `scrape_zomato` and `scrape_swiggy`
itself carries truthy `title` and `url` values — those two layers copy
the fields unchecked, as the counterexample shows.  The script-blob
hypotheses only restate what the findall patterns guarantee (every
capture is non-empty). -/
theorem C2_amended_records_valid (env : Env)
    (hpg : respPairsNE env.googleResp) (hpm : respPairsNE env.msHtml)
    (hpz : respPairsNE env.zomatoHtml) (hps : respPairsNE env.swiggyHtml)
    (hlz : respLdValid env.zomatoHtml) (hls : respLdValid env.swiggyHtml) :
    ∀ r ∈ scrape_all env, r.title.truthy = true ∧ r.link.truthy = true := by
  intro r hr
  rw [scrape_all] at hr
  rcases List.mem_append.mp hr with hr | hr
  · rcases List.mem_append.mp hr with hr | hr
    · rcases List.mem_append.mp hr with hr | hr
      · exact google_records_valid env hpg r hr
      · exact microsoft_records_valid env hpm r hr
    · exact zomato_records_valid env hpz hlz r hr
  · exact swiggy_records_valid env hps hls r hr

theorem respPairsNE_none : respPairsNE none := by
  intro r h
  cases h

theorem respLdValid_none : respLdValid none := by
  intro r h
  cases h

/-- Witness for C2 (amended): the record emitted in the concrete
Microsoft run has a truthy title and link. -/
theorem C2_amended_witness :
    (⟨"Microsoft", .str "Software Engineer", .str "",
      .str "https://jobs.careers.microsoft.com/global/en/job/174"⟩ :
        JobRecord).title.truthy = true ∧
    (⟨"Microsoft", .str "Software Engineer", .str "",
      .str "https://jobs.careers.microsoft.com/global/en/job/174"⟩ :
        JobRecord).link.truthy = true :=
  C2_amended_records_valid envC1 respPairsNE_none respPairsNE_none
    respPairsNE_none respPairsNE_none respLdValid_none respLdValid_none
    _ (by decide)

/-- C3 counterexample: a Microsoft API job with no `location` and no
`primaryLocation` alias is emitted with location equal to the empty
string, not the sentinel "India". -/
theorem C3_counterexample :
    msJobC3.lookup "location" = none ∧
    msJobC3.lookup "primaryLocation" = none ∧
    (scrape_microsoft envC3).map JobRecord.location = [Json.str ""] ∧
    Json.str "" ≠ Json.str "India" :=
  ⟨by rfl, by rfl, by rfl, by decide⟩

/-- C3 (amended): whenever the raw record carries no location alias, the
emitted location is the sentinel "India" in every layer — except the
Microsoft JSON-API layer, whose `job.get("location") or
job.get("primaryLocation", "")` defaults to the empty string. -/
theorem C3_amended_location_default :
    (∀ kvs : JsonObj, kvs.lookup "jobLocation" = none →
      ∀ r, googleLdItem (.obj kvs) = some (some r) →
        r.location = .str "India") ∧
    (∀ kvs : JsonObj, kvs.lookup "location" = none →
      kvs.lookup "city" = none →
      ∀ r, zomatoApiItem (.obj kvs) = some (some r) →
        r.location = .str "India") ∧
    (∀ kvs : JsonObj, kvs.lookup "location" = none →
      kvs.lookup "City" = none →
      ∀ r, swiggyApiItem (.obj kvs) = some (some r) →
        r.location = .str "India") ∧
    (∀ kvs : JsonObj, kvs.lookup "location" = none →
      kvs.lookup "primaryLocation" = none →
      ∀ r, msApiItem (.obj kvs) = some (some r) → r.location = .str "") ∧
    (∀ item r, zomatoLdItem item = some (some r) → r.location = .str "India") ∧
    (∀ item r, swiggyLdItem item = some (some r) → r.location = .str "India") ∧
    (∀ p, ∀ r ∈ googleBlobMk p, r.location = .str "India") ∧
    (∀ p, ∀ r ∈ msBlobMk p, r.location = .str "India") ∧
    (∀ p, ∀ r ∈ zomatoBlobMk p, r.location = .str "India") ∧
    (∀ p, ∀ r ∈ swiggyBlobMk p, r.location = .str "India") ∧
    (∀ c b a, (anchorRec c b a).location = .str "India") := by
  refine ⟨?_, ?_, ?_, ?_, ?_, ?_, ?_, ?_, ?_, ?_, ?_⟩
  · intro kvs h1 r hf
    rw [googleLdItem] at hf
    split at hf
    · have hloc : googleLocality kvs = some (.str "India") := by
        rw [googleLocality, h1]
        rfl
      rw [hloc] at hf
      rcases mkChecked_sound _ _ _ _ _ hf with ⟨rfl, -, -⟩
      rfl
    · simp at hf
  · intro kvs h1 h2 r hf
    rw [zomatoApiItem] at hf
    rcases mkChecked_sound _ _ _ _ _ hf with ⟨rfl, -, -⟩
    show pyOr ((kvs.lookup "location").getD .null)
      ((kvs.lookup "city").getD (.str "India")) = .str "India"
    rw [h1, h2]
    rfl
  · intro kvs h1 h2 r hf
    rw [swiggyApiItem] at hf
    rcases mkChecked_sound _ _ _ _ _ hf with ⟨rfl, -, -⟩
    show pyOr ((kvs.lookup "location").getD .null)
      ((kvs.lookup "City").getD (.str "India")) = .str "India"
    rw [h1, h2]
    rfl
  · intro kvs h1 h2 r hf
    rw [msApiItem] at hf
    rcases mkChecked_sound _ _ _ _ _ hf with ⟨rfl, -, -⟩
    show pyOr ((kvs.lookup "location").getD .null)
      ((kvs.lookup "primaryLocation").getD (.str "")) = .str ""
    rw [h1, h2]
    rfl
  · intro item r hf
    cases item with
    | obj kvs =>
      rw [zomatoLdItem] at hf
      split at hf
      · rcases Option.some.inj (Option.some.inj hf) with h
        rw [← h]
      · simp at hf
    | null => simp [zomatoLdItem] at hf
    | bool b => simp [zomatoLdItem] at hf
    | num n => simp [zomatoLdItem] at hf
    | str s => simp [zomatoLdItem] at hf
    | arr xs => simp [zomatoLdItem] at hf
  · intro item r hf
    cases item with
    | obj kvs =>
      rw [swiggyLdItem] at hf
      split at hf
      · rcases Option.some.inj (Option.some.inj hf) with h
        rw [← h]
      · simp at hf
    | null => simp [swiggyLdItem] at hf
    | bool b => simp [swiggyLdItem] at hf
    | num n => simp [swiggyLdItem] at hf
    | str s => simp [swiggyLdItem] at hf
    | arr xs => simp [swiggyLdItem] at hf
  · intro p r hr
    rw [googleBlobMk, List.mem_singleton] at hr
    subst hr
    rfl
  · intro p r hr
    rw [msBlobMk, List.mem_singleton] at hr
    subst hr
    rfl
  · intro p r hr
    rw [zomatoBlobMk] at hr
    split at hr
    · rw [List.mem_singleton] at hr
      subst hr
      rfl
    · simp at hr
  · intro p r hr
    rw [swiggyBlobMk, List.mem_singleton] at hr
    subst hr
    rfl
  · intro c b a
    rfl

/-- Witness for C3 (amended) at concrete raw records. -/
theorem C3_amended_witness :
    (⟨"Microsoft", .str "Software Engineer", .str "",
      .str "https://jobs.careers.microsoft.com/global/en/job/7"⟩ :
        JobRecord).location = .str "" ∧
    (⟨"Zomato", .str "Chef", .str "India", .str "https://z/1"⟩ :
        JobRecord).location = .str "India" :=
  ⟨C3_amended_location_default.2.2.2.1 msJobC3 rfl rfl _ (by rfl),
   C3_amended_location_default.2.1
     (JsonObj.ofList [("title", .str "Chef"), ("url", .str "https://z/1")])
     rfl rfl _ (by rfl)⟩

/-- C4 counterexample: the HTML-fallback layers ignore the HTTP status —
a Zomato careers page fetched with status 404 is still parsed, and its
qualifying anchor yields a record, so a non-200 layer contributed a
record instead of zero. -/
theorem C4_counterexample :
    respC4.status = 404 ∧
    envC4.zomatoHtml = some respC4 ∧
    scrape_zomato envC4 =
      [⟨"Zomato", .str "Engineering Opportunities", .str "India",
        .str "https://www.zomato.com/careers/engineering"⟩] :=
  ⟨rfl, rfl, by rfl⟩

/-- C4 (amended): failures are local and never escape — a JSON-API
endpoint attempt that hits a transport error, a non-200 status, or a JSON
parse failure is skipped exactly (same result as moving on to the next
attempt, contributing zero records), an HTML layer whose fetch raises
yields the empty list, every extractor is total, and a run in which every
fetch raises returns the empty combined list.  The HTML layers, however,
do not check the HTTP status: a non-200 HTML response is still parsed and
can contribute records (see the counterexample). -/
theorem C4_amended_failures_local :
    (∀ env : Env, env.googleResp = none → scrape_google env = []) ∧
    (∀ (o : Option Response) (rest : List (Option Response))
      (acc : List JobRecord), respFails o →
      zomatoApiGo (o :: rest) acc = zomatoApiGo rest acc) ∧
    (∀ (o : Option Response) (rest : List (Option Response))
      (acc : List JobRecord), respFails o →
      swiggyApiGo (o :: rest) acc = swiggyApiGo rest acc) ∧
    (∀ (o : Option Response) (acc : List JobRecord), respFails o →
      msApiStep o acc = (acc, false)) ∧
    msHtmlLayer none = [] ∧ zomatoHtmlLayer none = [] ∧
    swiggyHtmlLayer none = [] ∧
    scrape_all envNone = [] := by
  refine ⟨?_, ?_, ?_, ?_, rfl, rfl, rfl, by rfl⟩
  · intro env h
    rw [scrape_google, h, googleRaw]
    rfl
  · intro o rest acc hf
    rcases hf with rfl | ⟨r, rfl, hs⟩ | ⟨r, rfl, hj⟩
    · rw [zomatoApiGo]
    · rw [zomatoApiGo]
      have hc : (decide (r.status = 200) &&
          strContains r.contentType "application/json") = false := by
        simp [hs]
      rw [hc]
      simp
    · rw [zomatoApiGo]
      by_cases hc : (decide (r.status = 200) &&
          strContains r.contentType "application/json") = true
      · rw [if_pos hc, hj]
      · rw [if_neg hc]
  · intro o rest acc hf
    rcases hf with rfl | ⟨r, rfl, hs⟩ | ⟨r, rfl, hj⟩
    · rw [swiggyApiGo]
    · rw [swiggyApiGo]
      have hc : (decide (r.status = 200) &&
          strContains r.contentType "json") = false := by
        simp [hs]
      rw [hc]
      simp
    · rw [swiggyApiGo]
      by_cases hc : (decide (r.status = 200) &&
          strContains r.contentType "json") = true
      · rw [if_pos hc, hj]
      · rw [if_neg hc]
  · intro o acc hf
    rcases hf with rfl | ⟨r, rfl, hs⟩ | ⟨r, rfl, hj⟩
    · rw [msApiStep]
    · rw [msApiStep, if_neg hs]
    · rw [msApiStep]
      by_cases hst : r.status = 200
      · rw [if_pos hst, hj]
      · rw [if_neg hst]

/-- Witness for C4 (amended) at concrete failing fetches. -/
theorem C4_amended_witness :
    scrape_google envC1 = [] ∧
    zomatoApiGo [some respC4] [] = zomatoApiGo [] [] ∧
    msApiStep none [] = ([], false) ∧
    scrape_all envNone = [] :=
  ⟨C4_amended_failures_local.1 envC1 rfl,
   C4_amended_failures_local.2.1 (some respC4) [] []
     (Or.inr (Or.inl ⟨respC4, rfl, by decide⟩)),
   C4_amended_failures_local.2.2.2.1 none [] (Or.inl rfl),
   C4_amended_failures_local.2.2.2.2.2.2.2⟩

/-- C5 counterexample: Google's JSON-LD layer yields two records, but the
extractor's returned list is the deduplicated one-record list, so the
returned list does not equal the winning layer's output exactly. -/
theorem C5_counterexample :
    googleLdLayer respC5.scripts = [gRecC5, gRecC5] ∧
    scrape_google envC5 = [gRecC5] ∧
    scrape_google envC5 ≠ googleLdLayer respC5.scripts :=
  ⟨by rfl, by rfl, by decide⟩

/-- C5 (amended): each extractor returns exactly the output of the first
cascade layer that yields at least one record, with no merging across
layers — except `scrape_google`, which returns the winning layer's output
after its link-dedup pass. -/
theorem C5_amended_first_layer_wins (env : Env) :
    (msApiLayer env ≠ [] → scrape_microsoft env = msApiLayer env) ∧
    (msApiLayer env = [] → scrape_microsoft env = msHtmlLayer env.msHtml) ∧
    (zomatoApiLayer env ≠ [] → scrape_zomato env = zomatoApiLayer env) ∧
    (zomatoApiLayer env = [] →
      scrape_zomato env = zomatoHtmlLayer env.zomatoHtml) ∧
    (∀ resp, zomatoLdLayer resp.scripts ≠ [] →
      zomatoHtmlLayer (some resp) = zomatoLdLayer resp.scripts) ∧
    (∀ resp, zomatoLdLayer resp.scripts = [] →
      zomatoBlobLayer resp.scripts ≠ [] →
      zomatoHtmlLayer (some resp) = zomatoBlobLayer resp.scripts) ∧
    (∀ resp, zomatoLdLayer resp.scripts = [] →
      zomatoBlobLayer resp.scripts = [] →
      zomatoHtmlLayer (some resp) = zomatoAnchorLayer resp.anchors) ∧
    (swiggyApiLayer env ≠ [] → scrape_swiggy env = swiggyApiLayer env) ∧
    (swiggyApiLayer env = [] →
      scrape_swiggy env = swiggyHtmlLayer env.swiggyHtml) ∧
    (∀ resp, swiggyLdLayer resp.scripts ≠ [] →
      swiggyHtmlLayer (some resp) = swiggyLdLayer resp.scripts) ∧
    (∀ resp, swiggyLdLayer resp.scripts = [] →
      swiggyBlobLayer resp.scripts ≠ [] →
      swiggyHtmlLayer (some resp) = swiggyBlobLayer resp.scripts) ∧
    (∀ resp, swiggyLdLayer resp.scripts = [] →
      swiggyBlobLayer resp.scripts = [] →
      swiggyHtmlLayer (some resp) = swiggyAnchorLayer resp.anchors) ∧
    (∀ resp, env.googleResp = some resp → googleLdLayer resp.scripts ≠ [] →
      scrape_google env = dedupByLink [] (googleLdLayer resp.scripts)) ∧
    (∀ resp, env.googleResp = some resp → googleLdLayer resp.scripts = [] →
      scrape_google env = dedupByLink [] (googleBlobLayer resp.scripts)) := by
  refine ⟨?_, ?_, ?_, ?_, ?_, ?_, ?_, ?_, ?_, ?_, ?_, ?_, ?_, ?_⟩
  · intro h
    rw [scrape_microsoft, if_neg (by simpa using h)]
  · intro h
    rw [scrape_microsoft, if_pos (by simpa using h)]
  · intro h
    rw [scrape_zomato, if_neg (by simpa using h)]
  · intro h
    rw [scrape_zomato, if_pos (by simpa using h)]
  · intro resp h
    rw [zomatoHtmlLayer, if_pos (by simpa using h)]
  · intro resp h1 h2
    rw [zomatoHtmlLayer, if_neg (by simpa using h1),
      if_pos (by simpa using h2)]
  · intro resp h1 h2
    rw [zomatoHtmlLayer, if_neg (by simpa using h1),
      if_neg (by simpa using h2)]
  · intro h
    rw [scrape_swiggy, if_neg (by simpa using h)]
  · intro h
    rw [scrape_swiggy, if_pos (by simpa using h)]
  · intro resp h
    rw [swiggyHtmlLayer, if_pos (by simpa using h)]
  · intro resp h1 h2
    rw [swiggyHtmlLayer, if_neg (by simpa using h1),
      if_pos (by simpa using h2)]
  · intro resp h1 h2
    rw [swiggyHtmlLayer, if_neg (by simpa using h1),
      if_neg (by simpa using h2)]
  · intro resp hresp h
    rw [scrape_google, hresp, googleRaw, if_neg (by simpa using h)]
  · intro resp hresp h
    rw [scrape_google, hresp, googleRaw, if_pos (by simpa using h)]

/-- Witness for C5 (amended) at concrete runs. -/
theorem C5_amended_witness :
    scrape_microsoft envC1 = msApiLayer envC1 ∧
    zomatoHtmlLayer (some respC2) = zomatoLdLayer respC2.scripts :=
  ⟨(C5_amended_first_layer_wins envC1).1 (by decide),
   (C5_amended_first_layer_wins envC1).2.2.2.2.1 respC2 (by decide)⟩

/-- Witness for C7 (amended) at a concrete relative href. -/
theorem C7_amended_witness :
    (anchorRec "Zomato" "https://www.zomato.com" anchorC10b).link =
      Json.str ("https://www.zomato.com" ++ anchorC10b.href) ∧
    ∃ s, (⟨"Zomato", .str "Zomato career openings", .str "India",
        .str "https://www.zomato.com/careers"⟩ : JobRecord).link = Json.str s ∧
      pyStartsWith s "http" = true :=
  ⟨C7_amended_anchor_resolution.1 anchorC10b (by rfl),
   C7_amended_anchor_resolution.2.2.1 [anchorC10a] _ (by decide)⟩

end JobTracker
